import Mathlib

/-!
Shallow embedding of the per-region LULC classification pipeline from
`src/lulc_classification_gee.js` (a Google Earth Engine script).

Modelling conventions:
* A pixel location is a natural-number index into a fixed grid.
* A Sentinel-2 image is a list indexed by pixel location; `none` means the
  pixel is masked / has no data.  Stored band values are integers (as in
  the Sentinel-2 SR product; non-negativity is carried as a hypothesis
  where a claim needs it), the SCL scene-classification value is a natural
  number.  Derived values (medians, normalized-difference indices) are
  rationals, represented exactly as numerator/denominator pairs (`Frac`)
  and read back into `ℚ` by `denote`.
* An image collection (already filtered by date and bounds, which are pure
  metadata filters the claims do not touch) is a list of images.
* A region geometry (after `stableGeom`, i.e. dissolve + simplify, which
  only changes the pixel set covered) is the list of pixel indices inside
  the region.
* Engine-side primitives that are not part of the repository (median
  reducer, stratified sampling, random-forest training and voting) are
  modelled at their interface, from the spec; each such definition carries
  a doc comment saying so.
-/

namespace LULC

/-- An exact numeric value flowing through the pipeline, kept as a
numerator/denominator pair of integers (intended denominator positive).
The stored Sentinel-2 SR bands are integers; medians and normalized
differences of integers are rationals, which this pair represents exactly
(`denote` reads it back as the rational it stands for). -/
structure Frac where
  num : ℤ
  den : ℤ
deriving DecidableEq, Repr

/-- The rational number a `Frac` stands for. -/
def denote (f : Frac) : ℚ := (f.num : ℚ) / (f.den : ℚ)

/-- An integer band value as a `Frac`. -/
def ofInt (v : ℤ) : Frac := ⟨v, 1⟩

/-- One Sentinel-2 observation at one pixel: the ten spectral bands used by
the script (`BANDS10`, stored as integer surface-reflectance values) plus
the `SCL` scene-classification value. -/
structure S2Pixel where
  b2 : ℤ
  b3 : ℤ
  b4 : ℤ
  b5 : ℤ
  b6 : ℤ
  b7 : ℤ
  b8 : ℤ
  b8a : ℤ
  b11 : ℤ
  b12 : ℤ
  scl : ℕ
deriving DecidableEq, Repr

/-- An image: per pixel index, `some` observation or `none` when masked. -/
abbrev Image := List (Option S2Pixel)

/-- A region geometry: the pixel indices inside the (stabilized) region. -/
abbrev Geometry := List ℕ

/-- Source constant `APPLY_CLOUD_MASK = true` (line 33 of the script). -/
def APPLY_CLOUD_MASK : Bool := true

/-- `scl.eq(8).or(scl.eq(9)).or(scl.eq(10)).or(scl.eq(11))` from `maskS2`. -/
def isCloud (s : ℕ) : Bool := s == 8 || s == 9 || s == 10 || s == 11

/-- `scl.eq(3)` (cloud shadow) from `maskS2`. -/
def isShadow (s : ℕ) : Bool := s == 3

/-- `scl.eq(1)` (saturated / defective) from `maskS2`. -/
def isSaturated (s : ℕ) : Bool := s == 1

/-- `cloud.or(shadow).or(sat).not()` from `maskS2`: `true` means the pixel
is kept as valid. -/
def sclMask (s : ℕ) : Bool := !(isCloud s || isShadow s || isSaturated s)

/-- `maskS2`: `image.updateMask(mask)` keeps a pixel exactly when it was
already valid and the SCL-derived mask is set. -/
def maskS2 (img : Image) : Image :=
  img.map (fun o => o.bind (fun p => if sclMask p.scl then some p else none))

/-- `collection.size()` counts images in a collection (it is insensitive to
per-pixel masks). -/
def collectionSize (col : List Image) : ℕ := col.length

/-- Lines 70-73 of `getComposite`: the masked collection, its size as
`validCount`, and `ee.Algorithms.If(validCount.gt(0), masked, col)`. -/
def selectedCollection (applyMask : Bool) (col : List Image) : List Image :=
  let masked := if applyMask then col.map maskS2 else col
  if 0 < collectionSize masked then masked else col

/-- The valid observations a collection holds at one pixel location: the
per-pixel inputs of the median reducer. -/
def obsAt (col : List Image) (i : ℕ) : List S2Pixel :=
  col.filterMap (fun img => img.getD i none)

/-- Modelled from the spec (§4.2 step 4): the engine-side per-pixel
`median()` reducer over one band, i.e. the middle element of the sorted
values (mean of the two middle elements for an even count, represented
exactly). -/
def medianZ (l : List ℤ) : Frac :=
  let s := l.insertionSort (· ≤ ·)
  if s.length % 2 = 1 then ofInt (s.getD (s.length / 2) 0)
  else ⟨s.getD (s.length / 2 - 1) 0 + s.getD (s.length / 2) 0, 2⟩

/-- The spectral bands of a composite pixel (the median composite keeps the
band set of its inputs; the `SCL` median is never selected downstream and
is omitted). -/
structure RawPixel where
  b2 : Frac
  b3 : Frac
  b4 : Frac
  b5 : Frac
  b6 : Frac
  b7 : Frac
  b8 : Frac
  b8a : Frac
  b11 : Frac
  b12 : Frac
deriving DecidableEq, Repr

/-- Band-wise median of a nonempty list of observations at one pixel. -/
def medPixel (obs : List S2Pixel) : RawPixel :=
  { b2 := medianZ (obs.map (fun p => p.b2))
    b3 := medianZ (obs.map (fun p => p.b3))
    b4 := medianZ (obs.map (fun p => p.b4))
    b5 := medianZ (obs.map (fun p => p.b5))
    b6 := medianZ (obs.map (fun p => p.b6))
    b7 := medianZ (obs.map (fun p => p.b7))
    b8 := medianZ (obs.map (fun p => p.b8))
    b8a := medianZ (obs.map (fun p => p.b8a))
    b11 := medianZ (obs.map (fun p => p.b11))
    b12 := medianZ (obs.map (fun p => p.b12)) }

/-- `img.normalizedDifference([A, B])`: `(A - B) / (A + B)` computed
exactly on fraction pairs (for `a = p/q` and `b = r/s` with positive
denominators this is `(ps - rq) / (ps + rq)`); the engine masks the
result where the denominator vanishes, modelled as `none`. -/
def ndF (a b : Frac) : Option Frac :=
  if a.num * b.den + b.num * a.den = 0 then none
  else some ⟨a.num * b.den - b.num * a.den, a.num * b.den + b.num * a.den⟩

/-- A composite pixel: the raw spectral bands plus the three derived
indices appended by `addIndices` (an index is `none` where the engine
masks it). -/
structure CompPixel where
  raw : RawPixel
  ndvi : Option Frac
  ndwi : Option Frac
  ndbi : Option Frac
deriving DecidableEq, Repr

/-- `addIndices`: NDVI from `[B8, B4]`, NDWI from `[B3, B8]`, NDBI from
`[B11, B8]`, appended to the image (lines 57-62 of the script). -/
def addIndices (p : RawPixel) : CompPixel :=
  { raw := p, ndvi := ndF p.b8 p.b4, ndwi := ndF p.b3 p.b8
    ndbi := ndF p.b11 p.b8 }

/-- Value of the (index-appended) median composite of a collection at one
pixel: `none` when no image contributes a valid observation there. -/
def compositeAt (col : List Image) (i : ℕ) : Option CompPixel :=
  match obsAt col i with
  | [] => none
  | obs => some (addIndices (medPixel obs))

/-- `getComposite` (lines 65-76): select masked or unmasked collection by
`validCount.gt(0)`, median-reduce, clip to the geometry, append indices.
Clipping is modelled by listing only the pixels of the geometry (per pixel
the clip-then-addIndices order of the script is value-preserving). -/
def getComposite (applyMask : Bool) (col : List Image) (geom : Geometry) :
    List (ℕ × Option CompPixel) :=
  geom.map (fun i => (i, compositeAt (selectedCollection applyMask col) i))

/-- The band names a composite image can be selected by: the ten raw
Sentinel-2 bands of `BANDS10` plus the three appended indices. -/
inductive Band
  | B2 | B3 | B4 | B5 | B6 | B7 | B8 | B8A | B11 | B12
  | NDVI | NDWI | NDBI
deriving DecidableEq, Repr

/-- Source constant `BANDS10` (line 27 of the script). -/
def BANDS10 : List Band :=
  [.B2, .B3, .B4, .B5, .B6, .B7, .B8, .B8A, .B11, .B12]

/-- `var inputBands = BANDS10.concat(['NDVI', 'NDWI', 'NDBI'])`
(line 138 of the script). -/
def inputBands : List Band := BANDS10 ++ [.NDVI, .NDWI, .NDBI]

/-- Selecting one band of a composite pixel (an appended index band can be
masked, a raw band of an unmasked composite pixel cannot). -/
def bandValue (p : CompPixel) : Band → Option Frac
  | .B2 => some p.raw.b2
  | .B3 => some p.raw.b3
  | .B4 => some p.raw.b4
  | .B5 => some p.raw.b5
  | .B6 => some p.raw.b6
  | .B7 => some p.raw.b7
  | .B8 => some p.raw.b8
  | .B8A => some p.raw.b8a
  | .B11 => some p.raw.b11
  | .B12 => some p.raw.b12
  | .NDVI => p.ndvi
  | .NDWI => p.ndwi
  | .NDBI => p.ndbi

/-- The feature vector extracted at a composite pixel for a band list, in
the order of the list; `none` when any requested band is masked there. -/
def featuresOf (bands : List Band) (p : CompPixel) : Option (List Frac) :=
  bands.mapM (bandValue p)

/-- The ESA WorldCover reference raster clipped to the grid: per pixel
index, `some` reference category code or `none` where it has no coverage. -/
abbrev RefRaster := List (Option ℕ)

/-- `from = [10,20,30,40,50,60,70,80,90,95,100]` (line 82 of the script). -/
def ESA_FROM : List ℕ := [10, 20, 30, 40, 50, 60, 70, 80, 90, 95, 100]

/-- `to = [3,3,4,4,1,2,3,0,3,3,3]` (line 83 of the script). -/
def ESA_TO : List ℕ := [3, 3, 4, 4, 1, 2, 3, 0, 3, 3, 3]

/-- `wc.remap(from, to)` at one value: the target code paired with the
first matching source code; a value not in `from` is masked (`none`). -/
def remapVal (src tgt : List ℕ) (v : ℕ) : Option ℕ :=
  ((src.zip tgt).find? (fun pr => pr.1 == v)).map (fun pr => pr.2)

/-- The `class_auto` band of `autoSamples`: the clipped reference raster
remapped through `from`/`to` at one pixel. -/
def labeledAt (wc : RefRaster) (i : ℕ) : Option ℕ :=
  (wc.getD i none).bind (remapVal ESA_FROM ESA_TO)

/-- One training point: a pixel location and its `class_auto` label. -/
structure Sample where
  pix : ℕ
  label : ℕ
deriving DecidableEq, Repr

/-- All candidate sample points of a region: every geometry pixel where the
remapped reference raster is defined, with its remapped label. -/
def samplePoints (geom : Geometry) (wc : RefRaster) : List Sample :=
  geom.filterMap (fun i => (labeledAt wc i).map (fun c => ⟨i, c⟩))

/-- Modelled from the spec (§4.3 step 3): the engine-side
`stratifiedSample` primitive, whose implementation is not part of this
repository.  Per the spec it draws a seeded random sample of a fixed total
count, distributed over the remapped categories in proportion to their
prevalence subject to availability, confined to the region.  The seed
enters as a deterministic rotation of each stratum. -/
def stratifiedSample (numPoints seed : ℕ) (geom : Geometry)
    (wc : RefRaster) : List Sample :=
  let pts := samplePoints geom wc
  let classes := (pts.map (fun s => s.label)).dedup
  ((classes.map (fun c =>
      let cpts := pts.filter (fun s => s.label == c)
      (cpts.rotate seed).take (numPoints * cpts.length / pts.length))).flatten).take
    numPoints

/-- `autoSamples` (lines 79-95): remap ESA WorldCover inside the geometry
and draw a stratified sample with `numPoints = 500`, `seed = 42`,
`scale = 10` (the grid resolution, implicit in the pixel indexing). -/
def autoSamples (geom : Geometry) (wc : RefRaster) : List Sample :=
  stratifiedSample 500 42 geom wc

/-- The remapped classes actually present in the reference raster within a
region. -/
def presentLabels (geom : Geometry) (wc : RefRaster) : List ℕ :=
  ((samplePoints geom wc).map (fun s => s.label)).dedup

/-- Decidable equality for pipeline outcomes (used only to state and check
concrete runs). -/
instance {ε α : Type} [DecidableEq ε] [DecidableEq α] :
    DecidableEq (Except ε α) := fun x y =>
  match x, y with
  | .error a, .error b =>
    if h : a = b then .isTrue (by rw [h])
    else .isFalse (by intro hc; cases hc; exact h rfl)
  | .error _, .ok _ => .isFalse (by intro hc; cases hc)
  | .ok _, .error _ => .isFalse (by intro hc; cases hc)
  | .ok a, .ok b =>
    if h : a = b then .isTrue (by rw [h])
    else .isFalse (by intro hc; cases hc; exact h rfl)

/-- Region-level failures of the pipeline (spec §7): the only one the
script's data path can raise eagerly is the empty-training-set failure. -/
inductive PipeError
  | noSamples
deriving DecidableEq, Repr

/-- A trained random-forest classifier: the engine returns an opaque model;
the spec fixes its interface (ensemble size, seed, input band list, and
the training table the trees are fit to). -/
structure RFClassifier where
  numberOfTrees : ℕ
  seed : ℕ
  bands : List Band
  training : List (List Frac × ℕ)
deriving DecidableEq, Repr

/-- `img.select(bands).sampleRegions(...)` (lines 99-103): the training
table pairing the feature vector at each sample's pixel with the sample's
label; samples falling on masked composite pixels are dropped. -/
def sampleRegions (comp : List (ℕ × Option CompPixel)) (samples : List Sample)
    (bands : List Band) : List (List Frac × ℕ) :=
  samples.filterMap (fun s =>
    (((comp.find? (fun pr => pr.1 == s.pix)).bind (fun pr => pr.2)).bind
        (featuresOf bands)).map (fun fv => (fv, s.label)))

/-- `trainRF` (lines 98-113): build the training table, then train
`smileRandomForest` with 200 trees and seed 42 on it.  Modelled from the
spec (§4.4): the engine-side trainer fails explicitly on an empty training
set rather than returning a degenerate model. -/
def trainRF (comp : List (ℕ × Option CompPixel)) (samples : List Sample)
    (bands : List Band) : Except PipeError RFClassifier :=
  let training := sampleRegions comp samples bands
  if training.isEmpty then .error .noSamples
  else .ok { numberOfTrees := 200, seed := 42, bands := bands
             training := training }

/-- A deterministic fingerprint of a feature vector, used to model how a
tree's vote depends on the features it is shown. -/
def fvHash (fv : List Frac) : ℕ :=
  fv.foldl (fun a q => a + q.num.natAbs + q.den.natAbs) 0

/-- Modelled from the spec (§4.4): one decision tree of the ensemble; its
internals are engine-side, the spec fixes only that a tree is fit to the
training table under the given seed and predicts a training label.  A tree
is modelled as a deterministic, seed- and feature-dependent selector of a
training row's label. -/
def treeVote (training : List (List Frac × ℕ)) (seed t : ℕ) (fv : List Frac) : ℕ :=
  (training.getD ((seed + t + fvHash fv) % training.length) ([], 0)).2

/-- Modelled from the spec (§4.4): ensemble prediction is the majority
class among the 200 trees' votes. -/
def predictRF (clf : RFClassifier) (fv : List Frac) : ℕ :=
  let votes := (List.range clf.numberOfTrees).map
    (fun t => treeVote clf.training clf.seed t fv)
  (votes.argmax (fun v => votes.count v)).getD 0

/-- `comp.select(inputBands).classify(clf)` followed by `.clip(geom)`
(line 143): per composite pixel, extract the selected bands' feature
vector and predict; masked pixels stay masked. -/
def classifyRaster (comp : List (ℕ × Option CompPixel)) (selBands : List Band)
    (clf : RFClassifier) : List (ℕ × Option ℕ) :=
  comp.map (fun pr =>
    (pr.1, (pr.2.bind (featuresOf selBands)).map (predictRF clf)))

/-- Everything the execution loop consumes for one feature (city): its
name attribute, its stabilized geometry, the date/bounds-filtered
Sentinel-2 collection, and the reference raster. -/
structure RegionInput where
  name : String
  geom : Geometry
  col : List Image
  wc : RefRaster
deriving DecidableEq, Repr

/-- The classifier the loop body trains for one region (lines 136-141). -/
def regionClassifier (inp : RegionInput) : Except PipeError RFClassifier :=
  trainRF (getComposite APPLY_CLOUD_MASK inp.col inp.geom)
    (autoSamples inp.geom inp.wc) inputBands

/-- One iteration of the execution loop (lines 131-147), from the region's
input to its classified raster: composite, samples, training, and
classification of the composite restricted to `inputBands`.  The resulting
layers are handed to the external visualization surface. -/
def evalRegion (inp : RegionInput) : Except PipeError (List (ℕ × Option ℕ)) :=
  let comp := getComposite APPLY_CLOUD_MASK inp.col inp.geom
  match trainRF comp (autoSamples inp.geom inp.wc) inputBands with
  | .error e => .error e
  | .ok clf => .ok (classifyRaster comp inputBands clf)

/-- The execution loop over the ordered feature list: per region, the only
eager client-side step is reading the name attribute (plain data here);
every pipeline computation is a deferred engine evaluation whose outcome
surfaces on that region's own layers.  The batch outcome is the ordered
list of per-region results. -/
def runBatch (inps : List RegionInput) :
    List (String × Except PipeError (List (ℕ × Option ℕ))) :=
  inps.map (fun r => (r.name, evalRegion r))

/-- A fully valid Sentinel-2 observation (SCL code 4, vegetation). -/
def goodPx : S2Pixel := ⟨1, 2, 1, 1, 1, 1, 2, 1, 3, 1, 4⟩

/-- A one-pixel image whose only observation is valid. -/
def goodImg : Image := [some goodPx]

/-- The same observation but SCL-classified as cloud (code 9). -/
def cloudPx : S2Pixel := ⟨1, 2, 1, 1, 1, 1, 2, 1, 3, 1, 9⟩

/-- A one-pixel image whose only observation is cloud. -/
def cloudImg : Image := [some cloudPx]

/-- A one-pixel region geometry. -/
def unitGeom : Geometry := [0]

/-- A raw composite pixel used by concrete index computations. -/
def okRaw : RawPixel := medPixel [goodPx]

/-- A region with valid imagery and reference coverage (ESA code 10,
remapped to class 3). -/
def okRegion : RegionInput := ⟨"B", unitGeom, [goodImg], [some 10]⟩

/-- A region whose filtered collection holds no imagery at all. -/
def noImageryRegion : RegionInput := ⟨"A", unitGeom, [], [some 10]⟩

/-- A region where the reference raster has zero coverage. -/
def noRefRegion : RegionInput := ⟨"E", unitGeom, [goodImg], []⟩

/-- A two-pixel geometry whose reference raster holds exactly two of the
five target classes (ESA 10 ↦ 3 and ESA 50 ↦ 1). -/
def twoClassGeom : Geometry := [0, 1]

/-- The two-class reference raster for `twoClassGeom`. -/
def twoClassRef : RefRaster := [some 10, some 50]

/-- The feature vector of `okRegion`'s single composite pixel in
`inputBands` order. -/
def okFv : List Frac :=
  [⟨1, 1⟩, ⟨2, 1⟩, ⟨1, 1⟩, ⟨1, 1⟩, ⟨1, 1⟩, ⟨1, 1⟩, ⟨2, 1⟩, ⟨1, 1⟩, ⟨3, 1⟩,
    ⟨1, 1⟩, ⟨1, 3⟩, ⟨0, 4⟩, ⟨1, 5⟩]

/-- The classifier `okRegion` trains. -/
def okClf : RFClassifier := ⟨200, 42, inputBands, [(okFv, 3)]⟩

/-- Mapping a none-preserving function over an image commutes with reading
a pixel (out-of-range reads give `none` on both sides). -/
theorem getD_map_opt {α β : Type} (g : Option α → Option β)
    (hg : g none = none) (l : List (Option α)) (i : ℕ) :
    (l.map g).getD i none = g (l.getD i none) := by
  induction l generalizing i with
  | nil => simp [hg]
  | cons hd tl ih =>
    cases i with
    | zero => simp
    | succ n =>
      simp only [List.map_cons, List.getD_cons_succ]
      exact ih n

/-- Every observation a masked collection holds at any pixel passed the
SCL mask. -/
theorem mem_obsAt_masked {col : List Image} {i : ℕ} {p : S2Pixel}
    (h : p ∈ obsAt (col.map maskS2) i) : sclMask p.scl = true := by
  rcases List.mem_filterMap.mp h with ⟨img, himg, hget⟩
  rcases List.mem_map.mp himg with ⟨img0, -, rfl⟩
  rw [maskS2, getD_map_opt _ rfl] at hget
  rcases Option.bind_eq_some.mp hget with ⟨q, -, hq⟩
  by_cases hs : sclMask q.scl = true
  · simp only [if_pos hs, Option.some.injEq] at hq
    exact hq ▸ hs
  · simp [hs] at hq

/-- Every drawn sample is one of the region's candidate sample points. -/
theorem autoSamples_mem_points {geom : Geometry} {wc : RefRaster}
    {s : Sample} (h : s ∈ autoSamples geom wc) : s ∈ samplePoints geom wc := by
  simp only [autoSamples, stratifiedSample] at h
  have h2 := List.mem_of_mem_take h
  rcases List.mem_flatten.mp h2 with ⟨l, hl, hsl⟩
  rcases List.mem_map.mp hl with ⟨c, -, rfl⟩
  have h3 := List.mem_rotate.mp (List.mem_of_mem_take hsl)
  exact (List.mem_filter.mp h3).1

/-- A candidate sample point's label is among the classes present in the
remapped reference raster within the region. -/
theorem samplePoints_label_present {geom : Geometry} {wc : RefRaster}
    {s : Sample} (h : s ∈ samplePoints geom wc) :
    s.label ∈ presentLabels geom wc :=
  List.mem_dedup.mpr (List.mem_map.mpr ⟨s, h, rfl⟩)

/-- A candidate sample point's label is a value of the remap target list. -/
theorem samplePoints_label_tgt {geom : Geometry} {wc : RefRaster}
    {s : Sample} (h : s ∈ samplePoints geom wc) : s.label ∈ ESA_TO := by
  rcases List.mem_filterMap.mp h with ⟨i, -, hi⟩
  rcases Option.map_eq_some'.mp hi with ⟨c, hc, hcs⟩
  rcases Option.bind_eq_some.mp hc with ⟨v, -, hv⟩
  rcases Option.map_eq_some'.mp hv with ⟨pr, hpr, h2⟩
  have hmem := (List.of_mem_zip (List.mem_of_find?_eq_some hpr)).2
  cases hcs
  exact h2 ▸ hmem

/-- Shape of a successfully trained classifier: the literal 200-tree,
seed-42 model over the (necessarily non-empty) training table. -/
theorem trainRF_ok {comp : List (ℕ × Option CompPixel)}
    {samples : List Sample} {bands : List Band} {clf : RFClassifier}
    (h : trainRF comp samples bands = .ok clf) :
    clf = { numberOfTrees := 200, seed := 42, bands := bands
            training := sampleRegions comp samples bands } ∧
      sampleRegions comp samples bands ≠ [] := by
  simp only [trainRF] at h
  by_cases hemp : (sampleRegions comp samples bands).isEmpty = true
  · rw [if_pos hemp] at h
    cases h
  · rw [if_neg hemp] at h
    injection h with h1
    exact ⟨h1.symm, fun hnil => hemp (by simp [hnil])⟩

/-- The ensemble's majority vote is one of the training labels. -/
theorem predictRF_mem {clf : RFClassifier} (fv : List Frac)
    (hne : clf.training ≠ []) (ht : 0 < clf.numberOfTrees) :
    predictRF clf fv ∈ clf.training.map (fun pr => pr.2) := by
  have hlen : 0 < clf.training.length := List.length_pos.mpr hne
  simp only [predictRF]
  set votes := (List.range clf.numberOfTrees).map
    (fun t => treeVote clf.training clf.seed t fv) with hvotes
  have hvne : votes ≠ [] := by
    simp only [hvotes, ne_eq, List.map_eq_nil_iff, List.range_eq_nil]
    omega
  cases ha : votes.argmax (fun v => votes.count v) with
  | none => exact absurd (List.argmax_eq_none.mp ha) hvne
  | some m =>
    have hm : m ∈ votes := List.argmax_mem ha
    rcases List.mem_map.mp hm with ⟨t, -, hv⟩
    have hidx : ((clf.seed + t + fvHash fv) % clf.training.length) <
        clf.training.length := Nat.mod_lt _ hlen
    have : m = (clf.training[(clf.seed + t + fvHash fv) %
        clf.training.length]).2 := by
      rw [← hv, treeVote, List.getD_eq_getElem _ _ hidx]
    simp only [Option.getD_some, this]
    exact List.mem_map.mpr ⟨_, List.getElem_mem hidx, rfl⟩

/-- Every row of the training table carries the label of one of the input
samples. -/
theorem sampleRegions_label {comp : List (ℕ × Option CompPixel)}
    {samples : List Sample} {bands : List Band} {row : List Frac × ℕ}
    (h : row ∈ sampleRegions comp samples bands) :
    ∃ s ∈ samples, row.2 = s.label := by
  rcases List.mem_filterMap.mp h with ⟨s, hs, hrow⟩
  rcases Option.map_eq_some'.mp hrow with ⟨fv, -, hfv⟩
  exact ⟨s, hs, by rw [← hfv]⟩

/-- Claim C10: mapping `maskS2` over a collection never removes an image —
the masked collection's size equals the original's — so `getComposite`'s
fallback condition `validCount.gt(0)` holds exactly when the original
unmasked collection is non-empty, regardless of how many pixels the mask
invalidates; whenever any imagery exists, the masked collection itself is
the one selected. -/
theorem maskS2_preserves_size (col : List Image) :
    collectionSize (col.map maskS2) = collectionSize col ∧
      (0 < collectionSize (col.map maskS2) ↔ col ≠ []) ∧
      (col ≠ [] → selectedCollection true col = col.map maskS2) := by
  refine ⟨by simp [collectionSize], ?_, ?_⟩
  · simp [collectionSize, List.length_pos]
  · intro hne
    simp [selectedCollection, collectionSize, List.length_pos.mpr hne]

/-- Witness for C10 at a concrete one-image collection. -/
theorem maskS2_preserves_size_witness :
    selectedCollection true [cloudImg] = [cloudImg].map maskS2 :=
  (maskS2_preserves_size [cloudImg]).2.2 (by decide)

/-- Claim C1, evaluated at its failing input: a one-image collection whose
single in-region pixel is SCL-classified as cloud, with cloud masking
enabled.  The masked collection still counts one image, so the fallback to
the unmasked collection does not engage: the fully masked collection is
selected and the composite is empty at every region pixel, although the
unmasked collection would have yielded a non-empty composite. -/
theorem fallback_dead_on_full_mask :
    APPLY_CLOUD_MASK = true ∧
      collectionSize ([cloudImg].map maskS2) = 1 ∧
      selectedCollection APPLY_CLOUD_MASK [cloudImg] = [cloudImg].map maskS2 ∧
      getComposite APPLY_CLOUD_MASK [cloudImg] unitGeom = [(0, none)] ∧
      (getComposite false [cloudImg] unitGeom).map (fun pr => pr.2.isSome) =
        [true] := by
  decide

/-- Claim C2: a region's stratified sample holds at most the configured
500 points, and every sample's label is a remapped class actually present
in the reference raster within the region. -/
theorem autoSamples_bounded_and_present (geom : Geometry) (wc : RefRaster) :
    (autoSamples geom wc).length ≤ 500 ∧
      ∀ s ∈ autoSamples geom wc, s.label ∈ presentLabels geom wc := by
  constructor
  · simp only [autoSamples, stratifiedSample, List.length_take]
    exact min_le_left _ _
  · intro s hs
    exact samplePoints_label_present (autoSamples_mem_points hs)

/-- Witness for C2: a region holding exactly two of the five target
classes yields samples labeled with exactly those two classes. -/
theorem autoSamples_bounded_and_present_witness :
    (autoSamples twoClassGeom twoClassRef).length ≤ 500 ∧
      (⟨0, 3⟩ : Sample) ∈ autoSamples twoClassGeom twoClassRef ∧
      (Sample.mk 0 3).label ∈ presentLabels twoClassGeom twoClassRef ∧
      presentLabels twoClassGeom twoClassRef = [3, 1] :=
  ⟨(autoSamples_bounded_and_present twoClassGeom twoClassRef).1, by decide,
    (autoSamples_bounded_and_present twoClassGeom twoClassRef).2 _ (by decide),
    by decide⟩

set_option maxRecDepth 100000 in
/-- Claim C3: the batch outcome decomposes region by region — each
region's entry is a function of that region's input alone, so one region's
failure is recorded in its own entry and every other region is still
processed to completion; concretely, a region with unreachable imagery
yields an error entry while the next region of the same batch succeeds. -/
theorem runBatch_isolates_failures :
    (∀ (pre post : List RegionInput) (a b : RegionInput),
        runBatch (pre ++ a :: b :: post) =
          runBatch pre ++ (a.name, evalRegion a) ::
            (b.name, evalRegion b) :: runBatch post) ∧
      evalRegion noImageryRegion = .error .noSamples ∧
      (runBatch [noImageryRegion, okRegion]).map (fun pr => pr.2.isOk) =
        [false, true] := by
  refine ⟨?_, by decide, by decide⟩
  intro pre post a b
  simp [runBatch]

/-- Claim C4: the per-region pipeline is a deterministic function of its
inputs — repeated runs return the same sample set, classifier and
classification raster — and its two random primitives are pinned to the
script's literal seeds (sampling seed 42; random forest seed 42, 200
trees). -/
theorem pipeline_deterministic (inp : RegionInput) :
    autoSamples inp.geom inp.wc = autoSamples inp.geom inp.wc ∧
      regionClassifier inp = regionClassifier inp ∧
      evalRegion inp = evalRegion inp ∧
      autoSamples inp.geom inp.wc = stratifiedSample 500 42 inp.geom inp.wc ∧
      ∀ clf, regionClassifier inp = .ok clf →
        clf.seed = 42 ∧ clf.numberOfTrees = 200 := by
  refine ⟨rfl, rfl, rfl, rfl, fun clf h => ?_⟩
  simp only [regionClassifier] at h
  rcases trainRF_ok h with ⟨rfl, -⟩
  exact ⟨rfl, rfl⟩

set_option maxRecDepth 100000 in
/-- Witness for C4 at a concrete successful run. -/
theorem pipeline_deterministic_witness :
    okClf.seed = 42 ∧ okClf.numberOfTrees = 200 :=
  (pipeline_deterministic okRegion).2.2.2.2 okClf (by decide)

/-- Claim C5: every defined label of a region's classification raster lies
in the target taxonomy 0..4; no ESA WorldCover reference code leaks
through, because every training label passed the `from`/`to` remap. -/
theorem classification_labels_in_taxonomy (inp : RegionInput)
    (out : List (ℕ × Option ℕ)) (i lab : ℕ)
    (hrun : evalRegion inp = .ok out) (hmem : (i, some lab) ∈ out) :
    lab ∈ [0, 1, 2, 3, 4] := by
  simp only [evalRegion] at hrun
  cases htr : trainRF (getComposite APPLY_CLOUD_MASK inp.col inp.geom)
      (autoSamples inp.geom inp.wc) inputBands with
  | error e => rw [htr] at hrun; cases hrun
  | ok clf =>
    rw [htr] at hrun
    injection hrun with hout
    subst hout
    rcases trainRF_ok htr with ⟨hclf, hne⟩
    have hnt : clf.training ≠ [] := by rw [hclf]; simpa using hne
    have hT : 0 < clf.numberOfTrees := by rw [hclf]; simp
    rcases List.mem_map.mp hmem with ⟨pr, -, heq⟩
    have h2 : (pr.2.bind (featuresOf inputBands)).map (predictRF clf) =
        some lab := congrArg Prod.snd heq
    rcases Option.map_eq_some'.mp h2 with ⟨fv, -, hpred⟩
    have hm := predictRF_mem fv hnt hT
    rw [hpred, hclf] at hm
    simp only at hm
    rcases List.mem_map.mp hm with ⟨row, hrow, hlab⟩
    rcases sampleRegions_label hrow with ⟨s, hsmem, hslab⟩
    have hTO : s.label ∈ ESA_TO :=
      samplePoints_label_tgt (autoSamples_mem_points hsmem)
    have hall : ∀ c ∈ ESA_TO, c ∈ [0, 1, 2, 3, 4] := by decide
    have : lab = s.label := by rw [← hlab, hslab]
    exact this ▸ hall _ hTO

set_option maxRecDepth 100000 in
/-- Witness for C5 at a concrete run whose raster labels a pixel 3. -/
theorem classification_labels_in_taxonomy_witness :
    (3 : ℕ) ∈ [0, 1, 2, 3, 4] :=
  classification_labels_in_taxonomy okRegion [(0, some 3)] 0 3 (by decide)
    (by decide)

/-- Claim C6: with cloud masking enabled (as the script configures), every
observation the per-pixel median aggregates in `getComposite` passed the
SCL mask — no observation whose SCL code is saturated/defective (1), cloud
shadow (3), cloud (8, 9), cirrus (10) or snow/ice (11) contributes — and
the composite value at each region pixel is exactly the index-appended
median of those observations. -/
theorem masked_excluded_from_median :
    APPLY_CLOUD_MASK = true ∧
      (∀ s : ℕ, sclMask s = true ↔
        (s ≠ 8 ∧ s ≠ 9 ∧ s ≠ 10 ∧ s ≠ 11 ∧ s ≠ 3 ∧ s ≠ 1)) ∧
      (∀ (col : List Image) (i : ℕ),
        (obsAt (selectedCollection APPLY_CLOUD_MASK col) i).all
          (fun p => sclMask p.scl) = true) ∧
      ∀ (col : List Image) (geom : Geometry),
        getComposite APPLY_CLOUD_MASK col geom =
          geom.map (fun i =>
            (i, compositeAt (selectedCollection APPLY_CLOUD_MASK col) i)) := by
  refine ⟨rfl, ?_, ?_, fun col geom => rfl⟩
  · intro s
    simp only [sclMask, isCloud, isShadow, isSaturated, Bool.not_eq_true',
      Bool.or_eq_false_iff, beq_eq_false_iff_ne, ne_eq]
    tauto
  · intro col i
    rw [List.all_eq_true]
    intro p hp
    by_cases hc : col = []
    · subst hc
      simp [selectedCollection, collectionSize, obsAt] at hp
    · have hsel : selectedCollection APPLY_CLOUD_MASK col = col.map maskS2 := by
        simp [selectedCollection, APPLY_CLOUD_MASK, collectionSize,
          List.length_pos.mpr hc]
      rw [hsel] at hp
      exact mem_obsAt_masked hp

/-- Claim C7: zero training samples for a region force an empty training
table, and the region's run then fails with an explicit region-level error
instead of silently training a classifier on an empty sample set. -/
theorem zero_samples_region_fails (inp : RegionInput)
    (h : autoSamples inp.geom inp.wc = []) :
    evalRegion inp = .error .noSamples ∧
      regionClassifier inp = .error .noSamples := by
  have htr : trainRF (getComposite APPLY_CLOUD_MASK inp.col inp.geom)
      (autoSamples inp.geom inp.wc) inputBands = .error .noSamples := by
    rw [h]; rfl
  constructor
  · simp only [evalRegion]
    rw [htr]
  · exact htr

/-- Witness for C7: a region whose reference raster has no coverage. -/
theorem zero_samples_region_fails_witness :
    evalRegion noRefRegion = .error .noSamples ∧
      regionClassifier noRefRegion = .error .noSamples :=
  zero_samples_region_fails noRefRegion (by decide)

/-- Claim C8: training and inference use the same feature band list in the
same order: the classifier is trained on `inputBands` — the ten raw bands
followed by NDVI, NDWI, NDBI — and the raster is produced by classifying
the composite restricted to exactly that list. -/
theorem train_apply_bands_agree (inp : RegionInput) (clf : RFClassifier)
    (h : regionClassifier inp = .ok clf) :
    clf.bands = inputBands ∧
      evalRegion inp =
        .ok (classifyRaster (getComposite APPLY_CLOUD_MASK inp.col inp.geom)
          inputBands clf) ∧
      inputBands = [.B2, .B3, .B4, .B5, .B6, .B7, .B8, .B8A, .B11, .B12,
        .NDVI, .NDWI, .NDBI] := by
  simp only [regionClassifier] at h
  rcases trainRF_ok h with ⟨hclf, -⟩
  refine ⟨by rw [hclf], ?_, rfl⟩
  simp only [evalRegion]
  rw [h]

set_option maxRecDepth 100000 in
/-- Witness for C8 at a concrete successful run. -/
theorem train_apply_bands_agree_witness :
    okClf.bands = inputBands ∧
      evalRegion okRegion =
        .ok (classifyRaster (getComposite APPLY_CLOUD_MASK okRegion.col
          okRegion.geom) inputBands okClf) ∧
      inputBands = [.B2, .B3, .B4, .B5, .B6, .B7, .B8, .B8A, .B11, .B12,
        .NDVI, .NDWI, .NDBI] :=
  train_apply_bands_agree okRegion okClf (by decide)

/-- Claim C9: the three appended indices are the normalized differences of
their fixed band pairs — NDVI from (B8, B4), NDWI from (B3, B8), NDBI from
(B11, B8) — and every defined index value of non-negative band values with
positive denominators denotes the rational `(A - B) / (A + B)`, which lies
in the interval [-1, 1]. -/
theorem indices_formula_and_range (p : RawPixel) (a b v : Frac)
    (had : 0 < a.den) (hbd : 0 < b.den) (han : 0 ≤ a.num) (hbn : 0 ≤ b.num)
    (hv : ndF a b = some v) :
    (addIndices p).ndvi = ndF p.b8 p.b4 ∧
      (addIndices p).ndwi = ndF p.b3 p.b8 ∧
      (addIndices p).ndbi = ndF p.b11 p.b8 ∧
      denote v = (denote a - denote b) / (denote a + denote b) ∧
      -1 ≤ denote v ∧ denote v ≤ 1 := by
  simp only [ndF] at hv
  by_cases h0 : a.num * b.den + b.num * a.den = 0
  · rw [if_pos h0] at hv
    cases hv
  · rw [if_neg h0] at hv
    injection hv with hv2
    subst hv2
    have hqa : (0 : ℚ) < (a.den : ℚ) := by exact_mod_cast had
    have hqb : (0 : ℚ) < (b.den : ℚ) := by exact_mod_cast hbd
    have hA : 0 ≤ denote a :=
      div_nonneg (by exact_mod_cast han) hqa.le
    have hB : 0 ≤ denote b :=
      div_nonneg (by exact_mod_cast hbn) hqb.le
    have hsum : denote a + denote b =
        ((a.num * b.den + b.num * a.den : ℤ) : ℚ) /
          ((a.den : ℚ) * (b.den : ℚ)) := by
      simp only [denote]
      push_cast
      field_simp
    have hdiff : denote a - denote b =
        ((a.num * b.den - b.num * a.den : ℤ) : ℚ) /
          ((a.den : ℚ) * (b.den : ℚ)) := by
      simp only [denote]
      push_cast
      field_simp
      ring
    have hd0 : ((a.num * b.den + b.num * a.den : ℤ) : ℚ) ≠ 0 := by
      exact_mod_cast h0
    have hc0 : ((a.den : ℚ) * (b.den : ℚ)) ≠ 0 :=
      (mul_pos hqa hqb).ne'
    have hform : denote ⟨a.num * b.den - b.num * a.den,
        a.num * b.den + b.num * a.den⟩ =
        (denote a - denote b) / (denote a + denote b) := by
      rw [hsum, hdiff, denote, div_div_div_cancel_right₀]
      exact hc0
    have hABpos : 0 < denote a + denote b := by
      rcases lt_or_eq_of_le (add_nonneg hA hB) with h | h
      · exact h
      · exact absurd (by rw [hsum] at h; exact (div_eq_zero_iff.mp h.symm))
          (by push_neg; exact ⟨hd0, fun hc => hc0 hc⟩)
    refine ⟨rfl, rfl, rfl, hform, ?_, ?_⟩
    · rw [hform, le_div_iff₀ hABpos]
      linarith
    · rw [hform, div_le_one hABpos]
      linarith

/-- Witness for C9 at concrete band values 3 and 1. -/
theorem indices_formula_and_range_witness :
    (addIndices okRaw).ndvi = ndF okRaw.b8 okRaw.b4 ∧
      (addIndices okRaw).ndwi = ndF okRaw.b3 okRaw.b8 ∧
      (addIndices okRaw).ndbi = ndF okRaw.b11 okRaw.b8 ∧
      denote ⟨2, 4⟩ =
        (denote ⟨3, 1⟩ - denote ⟨1, 1⟩) / (denote ⟨3, 1⟩ + denote ⟨1, 1⟩) ∧
      -1 ≤ denote ⟨2, 4⟩ ∧ denote ⟨2, 4⟩ ≤ 1 :=
  indices_formula_and_range okRaw ⟨3, 1⟩ ⟨1, 1⟩ ⟨2, 4⟩ (by decide) (by decide)
    (by decide) (by decide) (by decide)

end LULC

